import Mathlib

/-!
# Verification of the marketing-analysis pipeline

A shallow embedding of the data transformations of the
`polars-marketing-insights` repository (files `src/marketing_analysis/utils.py`,
`src/marketing_analysis/analyzer.py`, `src/marketing_analysis/visualization.py`
and `main.py`), together with theorems settling the specification's claims
about them.

Numeric columns are modelled by exact rationals; where the source's
floating-point arithmetic can produce non-finite values (division by zero),
values are drawn from `FVal`, a rational extended with `inf`, `neginf` and
`nan` following IEEE semantics for division of finite operands.  Fallible
source operations are modelled with `Except`.
-/

/-- An IEEE-style floating-point value: a finite (exactly represented)
rational, a signed infinity, or NaN.  Rounding of finite results is not
modelled; the claims under study concern exact small values and the
finite/non-finite distinction only. -/
inductive FVal where
  | finite (q : ℚ)
  | inf
  | neginf
  | nan
deriving DecidableEq, Repr

/-- `true` exactly on finite values. -/
def FVal.isFinite : FVal → Bool
  | .finite _ => true
  | _ => false

/-- IEEE division of two finite values (`a / b` with floats): division by zero
yields a signed infinity, `0 / 0` yields NaN, otherwise the exact quotient. -/
def fdivQ (a b : ℚ) : FVal :=
  if b = 0 then
    if a = 0 then .nan
    else if 0 < a then .inf
    else .neginf
  else .finite (a / b)

/-- Multiplication of a float value by a positive finite constant
(used for the `* 1000` in the CPM column): infinities keep their sign,
NaN stays NaN. -/
def FVal.scalePos (c : ℚ) : FVal → FVal
  | .finite q => .finite (q * c)
  | .inf => .inf
  | .neginf => .neginf
  | .nan => .nan

/-- A cleaned campaign record: one row of the working table after
`clean_data` (monetary text already parsed, dates already decoded; a date is
modelled as an integer day number, which is all the comparisons need). -/
structure CRow where
  Campaign_ID : Nat
  Date : Int
  Channel_Used : String
  Customer_Segment : String
  Impressions : ℚ
  Clicks : ℚ
  Acquisition_Cost : ℚ
  Conversion_Rate : ℚ
  ROI : ℚ
  Engagement_Score : ℚ
deriving DecidableEq, Repr

/-- A row after the `with_columns` of `calculate_derived_metrics`
(`utils.py`): the five derived numeric columns added. -/
structure DRow extends CRow where
  CTR : FVal
  CPC : FVal
  CPM : FVal
  Total_Conversions : ℚ
  CPA : FVal
deriving DecidableEq, Repr

/-- A fully enriched row, after `add_performance_categories` (`utils.py`):
the three categorical buckets added. -/
structure Row extends DRow where
  ROI_Category : String
  Engagement_Category : String
  Conversion_Category : String
deriving DecidableEq, Repr

/-- The derived-metric expressions of `calculate_derived_metrics`
(`utils.py` lines 41-57), per row:
CTR = Clicks/Impressions, CPC = Acquisition_Cost/Clicks,
CPM = Acquisition_Cost/Impressions * 1000,
Total_Conversions = Conversion_Rate * Clicks,
CPA = Acquisition_Cost / (Conversion_Rate * Clicks).
Each division follows float semantics (`fdivQ`), so a zero denominator
yields a non-finite value instead of raising. -/
def deriveRow (r : CRow) : DRow :=
  { toCRow := r
    CTR := fdivQ r.Clicks r.Impressions
    CPC := fdivQ r.Acquisition_Cost r.Clicks
    CPM := (fdivQ r.Acquisition_Cost r.Impressions).scalePos 1000
    Total_Conversions := r.Conversion_Rate * r.Clicks
    CPA := fdivQ r.Acquisition_Cost (r.Conversion_Rate * r.Clicks) }

/-- The ROI bucket of `add_performance_categories` (`utils.py` lines 74-79):
`when(ROI >= 7) → "Haute performance", when(ROI >= 5) → "Performance
moyenne", otherwise "Basse performance"`. -/
def roiCategory (roi : ℚ) : String :=
  if 7 ≤ roi then "Haute performance"
  else if 5 ≤ roi then "Performance moyenne"
  else "Basse performance"

/-- The engagement bucket of `add_performance_categories`
(`utils.py` lines 82-87). -/
def engagementCategory (score : ℚ) : String :=
  if 8 ≤ score then "Très engageant"
  else if 6 ≤ score then "Engageant"
  else "Peu engageant"

/-- The conversion bucket of `add_performance_categories`
(`utils.py` lines 90-95). -/
def conversionCategory (rate : ℚ) : String :=
  if 1/10 ≤ rate then "Haute conversion"
  else if 1/20 ≤ rate then "Conversion moyenne"
  else "Basse conversion"

/-- `add_performance_categories` (`utils.py` lines 62-96): adds the three
categorical columns to every row. -/
def add_performance_categories (df : List DRow) : List Row :=
  df.map fun r =>
    { toDRow := r
      ROI_Category := roiCategory r.ROI
      Engagement_Category := engagementCategory r.Engagement_Score
      Conversion_Category := conversionCategory r.Conversion_Rate }

/-- `calculate_derived_metrics` (`utils.py` lines 31-60): the derived
columns followed by the category columns.  Total: no code path raises. -/
def calculate_derived_metrics (df : List CRow) : List Row :=
  add_performance_categories (df.map deriveRow)

/-- Mean of a column, as polars/SQL `mean`/`AVG` compute it on a non-empty
group (the groups produced by a group-by are never empty). -/
def qmean (l : List ℚ) : ℚ := l.sum / l.length

/-- One output row of `MarketingAnalyzer._analyze_channel_performance`
(`analyzer.py` lines 106-118). -/
structure ChannelPerfRow where
  Channel_Used : String
  avg_conversion : ℚ
  avg_roi : ℚ
  campaign_count : Nat
  avg_engagement : ℚ
  total_cost : ℚ
deriving DecidableEq, Repr

/-- `MarketingAnalyzer._analyze_channel_performance` (`analyzer.py` lines
106-118): group by `Channel_Used`, aggregate mean conversion, mean ROI,
row count, mean engagement and summed cost, then sort by `avg_roi`
descending. -/
def analyze_channel_performance (df : List Row) : List ChannelPerfRow :=
  ((df.map (·.Channel_Used)).dedup.map fun k =>
    let g := df.filter fun r => r.Channel_Used = k
    { Channel_Used := k
      avg_conversion := qmean (g.map (·.Conversion_Rate))
      avg_roi := qmean (g.map (·.ROI))
      campaign_count := g.length
      avg_engagement := qmean (g.map (·.Engagement_Score))
      total_cost := (g.map (·.Acquisition_Cost)).sum }).insertionSort
    fun a b => b.avg_roi ≤ a.avg_roi

/-- One output row of `MarketingAnalyzer._analyze_segment_performance`
(`analyzer.py` lines 120-131). -/
structure SegmentPerfRow where
  Customer_Segment : String
  avg_conversion : ℚ
  avg_roi : ℚ
  avg_engagement : ℚ
  campaign_count : Nat
deriving DecidableEq, Repr

/-- `MarketingAnalyzer._analyze_segment_performance` (`analyzer.py` lines
120-131): group by `Customer_Segment`, aggregate, sort by `avg_roi`
descending. -/
def analyze_segment_performance (df : List Row) : List SegmentPerfRow :=
  ((df.map (·.Customer_Segment)).dedup.map fun k =>
    let g := df.filter fun r => r.Customer_Segment = k
    { Customer_Segment := k
      avg_conversion := qmean (g.map (·.Conversion_Rate))
      avg_roi := qmean (g.map (·.ROI))
      avg_engagement := qmean (g.map (·.Engagement_Score))
      campaign_count := g.length }).insertionSort
    fun a b => b.avg_roi ≤ a.avg_roi

/-- One output row of `MarketingAnalyzer._analyze_temporal_performance`
(`analyzer.py` lines 133-144). -/
structure TemporalPerfRow where
  Date : Int
  avg_roi : ℚ
  avg_conversion : ℚ
  total_clicks : ℚ
  daily_spend : ℚ
deriving DecidableEq, Repr

/-- `MarketingAnalyzer._analyze_temporal_performance` (`analyzer.py` lines
133-144): group by `Date`, aggregate, sort by `Date` ascending. -/
def analyze_temporal_performance (df : List Row) : List TemporalPerfRow :=
  ((df.map (·.Date)).dedup.map fun k =>
    let g := df.filter fun r => r.Date = k
    { Date := k
      avg_roi := qmean (g.map (·.ROI))
      avg_conversion := qmean (g.map (·.Conversion_Rate))
      total_clicks := (g.map (·.Clicks)).sum
      daily_spend := (g.map (·.Acquisition_Cost)).sum }).insertionSort
    fun a b => a.Date ≤ b.Date

/-- Sample table for the channel-aggregation scenario of the spec's §8:
channel "A" with ROI values 4 and 6, channel "B" with ROI value 8. -/
def channelSampleRaw : List CRow :=
  [ { Campaign_ID := 1, Date := 0, Channel_Used := "A", Customer_Segment := "S"
      Impressions := 100, Clicks := 10, Acquisition_Cost := 50
      Conversion_Rate := 1/10, ROI := 4, Engagement_Score := 7 },
    { Campaign_ID := 2, Date := 1, Channel_Used := "A", Customer_Segment := "S"
      Impressions := 200, Clicks := 20, Acquisition_Cost := 100
      Conversion_Rate := 1/20, ROI := 6, Engagement_Score := 5 },
    { Campaign_ID := 3, Date := 2, Channel_Used := "B", Customer_Segment := "S"
      Impressions := 50, Clicks := 5, Acquisition_Cost := 25
      Conversion_Rate := 1/5, ROI := 8, Engagement_Score := 9 } ]

/-- The channel sample after cleaning-stage enrichment, as
`calculate_kpis` receives it. -/
def channelSample : List Row := calculate_derived_metrics channelSampleRaw

/-- The group keys of the segment-by-channel cross-tab: the distinct
`(Customer_Segment, Channel_Used)` pairs of the table.  Both the native
grouping path and the SQL path group by this key. -/
def seg_keys (df : List Row) : List (String × String) :=
  (df.map fun r => (r.Customer_Segment, r.Channel_Used)).dedup

/-- The member rows of one segment-by-channel group. -/
def seg_group (df : List Row) (k : String × String) : List Row :=
  df.filter fun r => (r.Customer_Segment, r.Channel_Used) = k

/-- One output row of the `segment_channel` table of `segment_analysis`
(`utils.py` lines 209-217), the native grouping path. -/
structure SegmentChannelRow where
  Customer_Segment : String
  Channel_Used : String
  avg_roi : ℚ
  avg_conversion : ℚ
  campaign_count : Nat
deriving DecidableEq, Repr

/-- One output row of the DuckDB query of
`MarketingAnalyzer._analyze_segment_channel_performance`
(`analyzer.py` lines 169-184). -/
structure SegmentChannelSQLRow where
  Customer_Segment : String
  Channel_Used : String
  avg_conversion : ℚ
  avg_roi : ℚ
  campaign_count : Nat
  total_cost : ℚ
deriving DecidableEq, Repr

/-- The per-group aggregation of the native path. -/
def segChannelNativeAgg (df : List Row) (k : String × String) : SegmentChannelRow :=
  let g := seg_group df k
  { Customer_Segment := k.1
    Channel_Used := k.2
    avg_roi := qmean (g.map (·.ROI))
    avg_conversion := qmean (g.map (·.Conversion_Rate))
    campaign_count := g.length }

/-- The per-group aggregation of the SQL path (`AVG(Conversion_Rate)`,
`AVG(ROI)`, `COUNT(*)`, `SUM(Acquisition_Cost)`). -/
def segChannelSQLAgg (df : List Row) (k : String × String) : SegmentChannelSQLRow :=
  let g := seg_group df k
  { Customer_Segment := k.1
    Channel_Used := k.2
    avg_conversion := qmean (g.map (·.Conversion_Rate))
    avg_roi := qmean (g.map (·.ROI))
    campaign_count := g.length
    total_cost := (g.map (·.Acquisition_Cost)).sum }

/-- The `segment_channel` cross-tab of `segment_analysis` (`utils.py` lines
209-217): group by `(Customer_Segment, Channel_Used)`, aggregate, sort by
segment ascending and then `avg_roi` descending.  Note there is no
minimum-group-size filter on this path. -/
def segment_channel (df : List Row) : List SegmentChannelRow :=
  ((seg_keys df).map (segChannelNativeAgg df)).insertionSort fun a b =>
    a.Customer_Segment < b.Customer_Segment ∨
      (a.Customer_Segment = b.Customer_Segment ∧ b.avg_roi ≤ a.avg_roi)

/-- `MarketingAnalyzer._analyze_segment_channel_performance`
(`analyzer.py` lines 169-184): the declarative query `GROUP BY
Customer_Segment, Channel_Used HAVING campaign_count >= 10 ORDER BY
avg_roi DESC`. -/
def analyze_segment_channel_performance (df : List Row) : List SegmentChannelSQLRow :=
  (((seg_keys df).map (segChannelSQLAgg df)).filter fun r =>
      10 ≤ r.campaign_count).insertionSort fun a b => b.avg_roi ≤ a.avg_roi

/-- The columns the two cross-tab paths have in common, for one native row:
segment, channel, mean conversion, mean ROI and row count. -/
def segChannelShared (r : SegmentChannelRow) : String × String × ℚ × ℚ × Nat :=
  (r.Customer_Segment, r.Channel_Used, r.avg_conversion, r.avg_roi, r.campaign_count)

/-- The shared columns of one SQL-path row. -/
def segChannelSQLShared (r : SegmentChannelSQLRow) : String × String × ℚ × ℚ × Nat :=
  (r.Customer_Segment, r.Channel_Used, r.avg_conversion, r.avg_roi, r.campaign_count)

/-- Filtering a mapped list is mapping the correspondingly filtered list. -/
theorem filter_of_map {α β : Type} (f : α → β) (p : β → Bool) :
    ∀ l : List α, (l.map f).filter p = (l.filter fun a => p (f a)).map f
  | [] => rfl
  | a :: l => by
    by_cases h : p (f a) <;>
      simp [List.filter_cons, h, filter_of_map f p l]

/-- C5: channel aggregation on channels {A: ROIs [4,6], B: ROIs [8]} yields
mean ROI 5 with count 2 for A, mean ROI 8 with count 1 for B, sorted
descending by mean ROI, so B's row precedes A's row. -/
theorem C5_channel_aggregation_sample :
    (analyze_channel_performance channelSample).map
        (fun r => (r.Channel_Used, r.avg_roi, r.campaign_count)) =
      [("B", 8, 1), ("A", 5, 2)] := by
  simp [analyze_channel_performance, channelSample, channelSampleRaw,
    calculate_derived_metrics, add_performance_categories, deriveRow, qmean,
    List.filter_cons, List.dedup_cons_of_mem, List.dedup_cons_of_not_mem]
  norm_num [List.insertionSort, List.orderedInsert]

/-- C6: for every input table, regardless of row order, the temporal
aggregation's output rows are sorted strictly ascending by date.  Ascending
order comes from the final sort; strictness holds because the group-by
produces one row per distinct date. -/
theorem C6_temporal_sorted_strict (df : List Row) :
    (analyze_temporal_performance df).Pairwise fun a b => a.Date < b.Date := by
  haveI : IsTotal TemporalPerfRow (fun a b => a.Date ≤ b.Date) :=
    ⟨fun a b => Int.le_total a.Date b.Date⟩
  haveI : IsTrans TemporalPerfRow (fun a b => a.Date ≤ b.Date) :=
    ⟨fun _ _ _ hab hbc => le_trans hab hbc⟩
  have hsorted :
      (analyze_temporal_performance df).Pairwise fun a b => a.Date ≤ b.Date :=
    List.sorted_insertionSort _ _
  have hperm := (List.perm_insertionSort
    (fun a b : TemporalPerfRow => a.Date ≤ b.Date)
    ((df.map (·.Date)).dedup.map fun k =>
      let g := df.filter fun r => r.Date = k
      { Date := k
        avg_roi := qmean (g.map (·.ROI))
        avg_conversion := qmean (g.map (·.Conversion_Rate))
        total_clicks := (g.map (·.Clicks)).sum
        daily_spend := (g.map (·.Acquisition_Cost)).sum })).map (·.Date)
  have hnodup : ((analyze_temporal_performance df).map (·.Date)).Nodup := by
    unfold analyze_temporal_performance
    rw [hperm.nodup_iff, List.map_map]
    exact (List.nodup_dedup _).map_on fun a _ b _ h => h
  have hne : (analyze_temporal_performance df).Pairwise fun a b =>
      a.Date ≠ b.Date := List.pairwise_map.mp hnodup
  exact (hsorted.and hne).imp fun h => lt_of_le_of_ne h.1 h.2

/-- C1 (amended): for every input table, the SQL cross-tab equals, up to row
ordering, the native cross-tab restricted to its groups with at least 10
member rows, compared on the columns the two paths share (segment, channel,
mean conversion, mean ROI, count).  The native path itself applies no
minimum-group-size filter. -/
theorem C1_cross_tab_refinement (df : List Row) :
    List.Perm
      ((analyze_segment_channel_performance df).map segChannelSQLShared)
      (((segment_channel df).filter fun r =>
        10 ≤ r.campaign_count).map segChannelShared) := by
  have h1 :
      List.Perm (analyze_segment_channel_performance df)
        (((seg_keys df).map (segChannelSQLAgg df)).filter fun r =>
          10 ≤ r.campaign_count) :=
    List.perm_insertionSort _ _
  have h2 :
      List.Perm ((segment_channel df).filter fun r => 10 ≤ r.campaign_count)
        ((((seg_keys df).map (segChannelNativeAgg df))).filter fun r =>
          10 ≤ r.campaign_count) :=
    (List.perm_insertionSort _ _).filter _
  refine ((h1.map _).trans ?_).trans (h2.map _).symm
  rw [filter_of_map, filter_of_map, List.map_map, List.map_map]
  exact List.Perm.refl _

/-- C1 (counterexample): on a table whose only group has a single row, that
group (count 1 < 10) appears in the native cross-tab while the SQL cross-tab
is empty, so the two results are not equal up to row ordering and the
minimum-sample filter does not hold on the native path. -/
theorem C1_counterexample :
    ((segment_channel channelSample).map fun r => r.campaign_count) = [1, 2] ∧
      analyze_segment_channel_performance channelSample = [] := by
  constructor
  · simp [segment_channel, seg_keys, seg_group, segChannelNativeAgg, qmean,
      channelSample, channelSampleRaw, calculate_derived_metrics,
      add_performance_categories, deriveRow, List.filter_cons,
      List.dedup_cons_of_mem, List.dedup_cons_of_not_mem]
    norm_num [List.insertionSort, List.orderedInsert, String.lt_irrefl]
  · simp [analyze_segment_channel_performance, seg_keys, seg_group,
      segChannelSQLAgg, qmean, channelSample, channelSampleRaw,
      calculate_derived_metrics, add_performance_categories, deriveRow,
      List.filter_cons, List.dedup_cons_of_mem, List.dedup_cons_of_not_mem,
      List.insertionSort]

/-- C3: for every row of the output of `calculate_derived_metrics`, CTR is
clicks divided by impressions under float semantics, and a row with zero
impressions gets a non-finite CTR.  The function is total in the embedding,
matching the source, where the float division never raises. -/
theorem C3_ctr_division (df : List CRow) (r : Row)
    (h : r ∈ calculate_derived_metrics df) :
    r.CTR = fdivQ r.Clicks r.Impressions ∧
      (r.Impressions = 0 → r.CTR.isFinite = false) := by
  rcases List.mem_map.mp h with ⟨d, hd, rfl⟩
  rcases List.mem_map.mp hd with ⟨c, _, rfl⟩
  refine ⟨rfl, fun h0 => ?_⟩
  show (fdivQ c.Clicks c.Impressions).isFinite = false
  rw [show c.Impressions = 0 from h0]
  unfold fdivQ
  split_ifs with h1 h2 h3 <;> first | rfl | exact absurd rfl h1

/-- A sample raw row with zero impressions and ROI exactly 7 (used to
witness the division-by-zero and tie-breaking behaviors on concrete data). -/
def zraw : CRow :=
  { Campaign_ID := 9, Date := 5, Channel_Used := "Email", Customer_Segment := "A"
    Impressions := 0, Clicks := 3, Acquisition_Cost := 40
    Conversion_Rate := 1/10, ROI := 7, Engagement_Score := 6 }

/-- The enriched form of `zraw`, as `calculate_derived_metrics` produces it. -/
def zEnriched : Row :=
  { toDRow := deriveRow zraw
    ROI_Category := roiCategory zraw.ROI
    Engagement_Category := engagementCategory zraw.Engagement_Score
    Conversion_Category := conversionCategory zraw.Conversion_Rate }

/-- Witness for C3 at a concrete row with zero impressions. -/
theorem C3_ctr_division_witness :
    zEnriched ∈ calculate_derived_metrics [zraw] ∧
      (zEnriched.CTR = fdivQ zEnriched.Clicks zEnriched.Impressions ∧
        (zEnriched.Impressions = 0 → zEnriched.CTR.isFinite = false)) :=
  ⟨List.mem_singleton.mpr rfl,
    C3_ctr_division [zraw] zEnriched (List.mem_singleton.mpr rfl)⟩

/-- The tier characterization of the ROI bucket: inclusive lower bounds,
ties to the higher tier. -/
theorem roiCategory_spec (q : ℚ) :
    (roiCategory q = "Haute performance" ↔ 7 ≤ q) ∧
      (roiCategory q = "Performance moyenne" ↔ 5 ≤ q ∧ q < 7) ∧
      (roiCategory q = "Basse performance" ↔ q < 5) := by
  unfold roiCategory
  split_ifs with h7 h5
  · exact ⟨⟨fun _ => h7, fun _ => rfl⟩,
      ⟨fun hs => absurd hs (by decide),
        fun hq => absurd hq.2 (not_lt.mpr h7)⟩,
      ⟨fun hs => absurd hs (by decide),
        fun hq => absurd hq (not_lt.mpr (by linarith))⟩⟩
  · exact ⟨⟨fun hs => absurd hs (by decide), fun hq => absurd hq h7⟩,
      ⟨fun _ => ⟨h5, lt_of_not_le h7⟩, fun _ => rfl⟩,
      ⟨fun hs => absurd hs (by decide),
        fun hq => absurd hq (not_lt.mpr h5)⟩⟩
  · exact ⟨⟨fun hs => absurd hs (by decide), fun hq => absurd hq h7⟩,
      ⟨fun hs => absurd hs (by decide), fun hq => absurd hq.1 h5⟩,
      ⟨fun _ => lt_of_not_le h5, fun _ => rfl⟩⟩

/-- C4: for every row, the ROI category is the high tier exactly when
ROI ≥ 7, the medium tier exactly when 5 ≤ ROI < 7, and the low tier exactly
when ROI < 5; at the boundary values 7.0 is high, 6.99 is medium, 5.0 is
medium, 4.99 is low. -/
theorem C4_roi_category (df : List DRow) (r : Row)
    (h : r ∈ add_performance_categories df) :
    ((r.ROI_Category = "Haute performance" ↔ 7 ≤ r.ROI) ∧
      (r.ROI_Category = "Performance moyenne" ↔ 5 ≤ r.ROI ∧ r.ROI < 7) ∧
      (r.ROI_Category = "Basse performance" ↔ r.ROI < 5)) ∧
    (roiCategory 7 = "Haute performance" ∧
      roiCategory (699/100) = "Performance moyenne" ∧
      roiCategory 5 = "Performance moyenne" ∧
      roiCategory (499/100) = "Basse performance") := by
  refine ⟨?_, by norm_num [roiCategory]⟩
  rcases List.mem_map.mp h with ⟨d, _, rfl⟩
  exact roiCategory_spec d.ROI

/-- Witness for C4 at a concrete row with ROI = 7 (a tie at the high-tier
boundary). -/
theorem C4_roi_category_witness :
    zEnriched ∈ add_performance_categories [deriveRow zraw] ∧
      (((zEnriched.ROI_Category = "Haute performance" ↔ 7 ≤ zEnriched.ROI) ∧
        (zEnriched.ROI_Category = "Performance moyenne" ↔
          5 ≤ zEnriched.ROI ∧ zEnriched.ROI < 7) ∧
        (zEnriched.ROI_Category = "Basse performance" ↔ zEnriched.ROI < 5)) ∧
      (roiCategory 7 = "Haute performance" ∧
        roiCategory (699/100) = "Performance moyenne" ∧
        roiCategory 5 = "Performance moyenne" ∧
        roiCategory (499/100) = "Basse performance")) :=
  ⟨List.mem_singleton.mpr rfl,
    C4_roi_category [deriveRow zraw] zEnriched (List.mem_singleton.mpr rfl)⟩

/-- Whitespace as `str.strip_chars()` strips it by default. -/
def isWS (c : Char) : Bool := c = ' ' || c = '\t' || c = '\n' || c = '\r'

/-- `str.strip_chars()` (`utils.py` line 24): remove leading and trailing
whitespace. -/
def stripChars (s : List Char) : List Char :=
  ((s.dropWhile isWS).reverse.dropWhile isWS).reverse

/-- polars `str.replace` (`utils.py` lines 25-26) replaces only the FIRST
match of the pattern; for the single-character patterns `\$` and `,` this
removes the first occurrence of that character, if any. -/
def removeFirst (c : Char) : List Char → List Char
  | [] => []
  | x :: xs => if x = c then xs else x :: removeFirst c xs

/-- The natural number denoted by a digit string. -/
def natOfDigits (ds : List Char) : ℕ :=
  ds.foldl (fun n c => 10 * n + (c.toNat - '0'.toNat)) 0

/-- Parsing of an unsigned decimal float literal, as `cast(pl.Float64)` does
on the remaining text (`utils.py` line 27): an optional run of digits, an
optional dot followed by fraction digits, at least one digit overall.
Exponent, infinity and NaN literals are not modelled: the inputs in scope
are currency text.  `none` models polars raising `ComputeError` (strict
cast). -/
def parseUnsigned (s : List Char) : Option ℚ :=
  let ip := s.takeWhile Char.isDigit
  match s.dropWhile Char.isDigit with
  | [] => if ip.isEmpty then none else some (natOfDigits ip : ℚ)
  | '.' :: fr =>
    if fr.all Char.isDigit && !(ip.isEmpty && fr.isEmpty) then
      some ((natOfDigits ip : ℚ) + (natOfDigits fr : ℚ) / (10:ℚ) ^ fr.length)
    else none
  | _ => none

/-- Parsing of a signed decimal float literal. -/
def parseFloat (s : List Char) : Option ℚ :=
  match s with
  | [] => none
  | c :: rest =>
    if c = '-' then (parseUnsigned rest).map (fun q => -q)
    else if c = '+' then parseUnsigned rest
    else parseUnsigned s

/-- The per-cell cleaning chain of `clean_monetary_value` (`utils.py` lines
22-29): strip surrounding whitespace, remove the first `$`, remove the
first `,`, cast to float. -/
def cleanCell (s : List Char) : Option ℚ :=
  parseFloat (removeFirst ',' (removeFirst '$' (stripChars s)))

/-- A generic table cell (the non-target columns of a table may hold any
of the dataset's value kinds). -/
inductive Cell where
  | str (s : String)
  | float (v : FVal)
  | int (n : Int)
deriving DecidableEq, Repr

/-- A named column of a generic table. -/
structure Column where
  name : String
  cells : List Cell
deriving DecidableEq, Repr

/-- A generic table, column-oriented as in polars. -/
abbrev DataFrame := List Column

/-- Cleaning one cell of the target column: the cell must hold text (the
`str` namespace raises on other dtypes) and the text must cast; polars
raises `ComputeError` otherwise (strict cast). -/
def cleanCellE : Cell → Except String Cell
  | .str s =>
    match cleanCell s.data with
    | some q => .ok (.float (.finite q))
    | none => .error "ComputeError: conversion to Float64 failed"
  | _ => .error "SchemaError: string expression applied to a non-string column"

/-- Sequencing of fallible per-element operations: the first error aborts,
as an exception aborts the polars expression evaluation. -/
def mapExcept {α β ε : Type} (f : α → Except ε β) : List α → Except ε (List β)
  | [] => .ok []
  | a :: l => do
    let b ← f a
    let bs ← mapExcept f l
    pure (b :: bs)

/-- `clean_monetary_value` (`utils.py` lines 10-29): `with_columns` replaces
the named column with its cleaned version and leaves every other column
untouched; referencing a missing column raises. -/
def clean_monetary_value (df : DataFrame) (column : String) : Except String DataFrame :=
  if (df.map Column.name).contains column then
    mapExcept (fun c =>
      if c.name = column then
        (mapExcept cleanCellE c.cells).map fun cells =>
          { name := c.name, cells := cells }
      else .ok c) df
  else .error "ColumnNotFoundError"

/-- Elements satisfying the predicate are dropped as a block from the front
of an append. -/
theorem dropWhile_append_left {α : Type} (p : α → Bool) :
    ∀ (l₁ l₂ : List α), (∀ a ∈ l₁, p a = true) →
      (l₁ ++ l₂).dropWhile p = l₂.dropWhile p
  | [], _, _ => rfl
  | a :: l₁, l₂, h => by
    simp only [List.cons_append, List.dropWhile_cons,
      h a (List.mem_cons_self a l₁), if_true]
    exact dropWhile_append_left p l₁ l₂ fun b hb => h b (List.mem_cons_of_mem a hb)

/-- `dropWhile` keeps a list whose head falsifies the predicate. -/
theorem dropWhile_eq_self_of_head {α : Type} (p : α → Bool) (l : List α)
    (h : ∀ b, l.head? = some b → p b = false) : l.dropWhile p = l := by
  cases l with
  | nil => rfl
  | cons a t => simp [List.dropWhile_cons, h a rfl]

/-- `takeWhile` passes over a prefix wholly satisfying the predicate. -/
theorem takeWhile_append_left {α : Type} (p : α → Bool) :
    ∀ (l₁ l₂ : List α), (∀ a ∈ l₁, p a = true) →
      (l₁ ++ l₂).takeWhile p = l₁ ++ l₂.takeWhile p
  | [], _, _ => rfl
  | a :: l₁, l₂, h => by
    simp only [List.cons_append, List.takeWhile_cons,
      h a (List.mem_cons_self a l₁), if_true]
    rw [takeWhile_append_left p l₁ l₂ fun b hb => h b (List.mem_cons_of_mem a hb)]

/-- `takeWhile` stops at a head falsifying the predicate. -/
theorem takeWhile_eq_nil_of_head {α : Type} (p : α → Bool) (l : List α)
    (h : ∀ b, l.head? = some b → p b = false) : l.takeWhile p = [] := by
  cases l with
  | nil => rfl
  | cons a t => simp [List.takeWhile_cons, h a rfl]

/-- Stripping whitespace from around a whitespace-free nonempty core
returns the core. -/
theorem stripChars_sandwich (w1 w2 m : List Char)
    (hw1 : ∀ c ∈ w1, isWS c = true) (hw2 : ∀ c ∈ w2, isWS c = true)
    (hm : ∀ c ∈ m, isWS c = false) (hm0 : m ≠ []) :
    stripChars (w1 ++ m ++ w2) = m := by
  obtain ⟨a, m', rfl⟩ : ∃ a m', m = a :: m' := by
    cases m with
    | nil => exact absurd rfl hm0
    | cons a m' => exact ⟨a, m', rfl⟩
  have h1 : (w1 ++ (a :: m') ++ w2).dropWhile isWS = (a :: m') ++ w2 := by
    rw [List.append_assoc, dropWhile_append_left _ _ _ hw1]
    apply dropWhile_eq_self_of_head
    intro b hb
    rw [List.cons_append, List.head?_cons] at hb
    cases hb
    exact hm a (List.mem_cons_self a m')
  have h2 : ((a :: m') ++ w2).reverse.dropWhile isWS = (a :: m').reverse := by
    rw [List.reverse_append,
      dropWhile_append_left _ _ _ fun c hc => hw2 c (List.mem_reverse.mp hc)]
    apply dropWhile_eq_self_of_head
    intro b hb
    exact hm b (List.mem_reverse.mp (List.mem_of_mem_head? hb))
  unfold stripChars
  rw [h1, h2, List.reverse_reverse]

/-- Removing the first occurrence of the head character. -/
theorem removeFirst_cons_self (c : Char) (l : List Char) :
    removeFirst c (c :: l) = l := by
  simp [removeFirst]

/-- `removeFirst` is the identity when the character does not occur. -/
theorem removeFirst_of_not_mem (c : Char) :
    ∀ l : List Char, c ∉ l → removeFirst c l = l
  | [], _ => rfl
  | a :: l, h => by
    have hac : ¬a = c := fun hc => h (hc ▸ List.mem_cons_self a l)
    simp only [removeFirst, if_neg hac]
    rw [removeFirst_of_not_mem c l fun hm => h (List.mem_cons_of_mem a hm)]

/-- `removeFirst` deletes exactly the first occurrence. -/
theorem removeFirst_append_first (c : Char) :
    ∀ (l₁ l₂ : List Char), c ∉ l₁ →
      removeFirst c (l₁ ++ c :: l₂) = l₁ ++ l₂
  | [], l₂, _ => by simp [removeFirst]
  | a :: l₁, l₂, h => by
    have hac : ¬a = c := fun hc => h (hc ▸ List.mem_cons_self a l₁)
    simp only [List.cons_append, removeFirst, if_neg hac, List.append_eq]
    rw [removeFirst_append_first c l₁ l₂ fun hm => h (List.mem_cons_of_mem a hm)]

/-- A decimal digit is none of the structural characters of currency text
and is not whitespace. -/
theorem isDigit_props (c : Char) (h : c.isDigit = true) :
    ¬c = '-' ∧ ¬c = '+' ∧ ¬c = ',' ∧ ¬c = '.' ∧ ¬c = '$' ∧ isWS c = false := by
  refine ⟨?_, ?_, ?_, ?_, ?_, ?_⟩
  · rintro rfl; exact absurd h (by decide)
  · rintro rfl; exact absurd h (by decide)
  · rintro rfl; exact absurd h (by decide)
  · rintro rfl; exact absurd h (by decide)
  · rintro rfl; exact absurd h (by decide)
  · cases hw : isWS c
    · rfl
    · exfalso
      simp only [isWS, Bool.or_eq_true, decide_eq_true_eq] at hw
      rcases hw with ((rfl | rfl) | rfl) | rfl <;> exact absurd h (by decide)

/-- The cast succeeds on a digit string with an optional fraction and
returns the denoted value. -/
theorem parseUnsigned_wellformed (d f : List Char) (hd : d ≠ [])
    (hdd : ∀ c ∈ d, c.isDigit = true) (hfd : ∀ c ∈ f, c.isDigit = true) :
    parseUnsigned (d ++ (if f = [] then [] else '.' :: f)) =
      some ((natOfDigits d : ℚ) + (natOfDigits f : ℚ) / (10:ℚ) ^ f.length) := by
  have hde : d.isEmpty = false := by
    cases d with
    | nil => exact absurd rfl hd
    | cons => rfl
  by_cases hf : f = []
  · subst hf
    rw [if_pos rfl, List.append_nil]
    have ht : d.takeWhile Char.isDigit = d := by
      have := takeWhile_append_left Char.isDigit d [] hdd
      simpa using this
    have hdrop : d.dropWhile Char.isDigit = [] := by
      have := dropWhile_append_left Char.isDigit d [] hdd
      simpa using this
    simp [parseUnsigned, ht, hdrop, hde, natOfDigits]
  · rw [if_neg hf]
    have ht : (d ++ '.' :: f).takeWhile Char.isDigit = d := by
      rw [takeWhile_append_left _ _ _ hdd,
        takeWhile_eq_nil_of_head _ _ ?hh, List.append_nil]
      case hh =>
        intro b hb
        rw [List.head?_cons] at hb
        cases hb
        rfl
    have hdrop : (d ++ '.' :: f).dropWhile Char.isDigit = '.' :: f := by
      rw [dropWhile_append_left _ _ _ hdd]
      apply dropWhile_eq_self_of_head
      intro b hb
      rw [List.head?_cons] at hb
      cases hb
      rfl
    have hall : f.all Char.isDigit = true := List.all_eq_true.mpr hfd
    simp [parseUnsigned, ht, hdrop, hall, hde]

/-- A string starting with a digit has no sign, so float parsing is the
unsigned parse. -/
theorem parseFloat_of_head_digit (s : List Char)
    (h : ∀ b, s.head? = some b → b.isDigit = true) :
    parseFloat s = parseUnsigned s := by
  cases s with
  | nil => rfl
  | cons c t =>
    obtain ⟨h1, h2, -⟩ := isDigit_props c (h c rfl)
    simp [parseFloat, h1, h2]

/-- Cleaning a well-formed currency text with at most one thousands
separator yields the denoted value: surrounding whitespace and the symbol
are stripped, the one separator is removed, and the cast succeeds. -/
theorem cleanCell_wellformed (w1 w2 a b f : List Char)
    (hw1 : ∀ c ∈ w1, isWS c = true) (hw2 : ∀ c ∈ w2, isWS c = true)
    (ha : a ≠ []) (hda : ∀ c ∈ a, c.isDigit = true)
    (hdb : ∀ c ∈ b, c.isDigit = true) (hdf : ∀ c ∈ f, c.isDigit = true) :
    cleanCell (w1 ++ ('$' :: (a ++ (if b = [] then [] else ',' :: b) ++
        (if f = [] then [] else '.' :: f))) ++ w2) =
      some ((natOfDigits (a ++ b) : ℚ) +
        (natOfDigits f : ℚ) / (10:ℚ) ^ f.length) := by
  have hdot : ∀ c ∈ (if f = [] then [] else '.' :: f), c.isDigit = true ∨ c = '.' := by
    intro c hc
    by_cases hf : f = []
    · rw [if_pos hf] at hc
      exact absurd hc (List.not_mem_nil c)
    · rw [if_neg hf] at hc
      rcases List.mem_cons.mp hc with rfl | hc
      · exact Or.inr rfl
      · exact Or.inl (hdf c hc)
  have hmchars : ∀ c ∈ '$' :: (a ++ (if b = [] then [] else ',' :: b) ++
      (if f = [] then [] else '.' :: f)), isWS c = false := by
    intro c hc
    rcases List.mem_cons.mp hc with rfl | hc
    · rfl
    rcases List.mem_append.mp hc with hc | hc
    · rcases List.mem_append.mp hc with hc | hc
      · exact (isDigit_props c (hda c hc)).2.2.2.2.2
      · by_cases hb : b = []
        · rw [if_pos hb] at hc
          exact absurd hc (List.not_mem_nil c)
        · rw [if_neg hb] at hc
          rcases List.mem_cons.mp hc with rfl | hc
          · rfl
          · exact (isDigit_props c (hdb c hc)).2.2.2.2.2
    · rcases hdot c hc with hdig | rfl
      · exact (isDigit_props c hdig).2.2.2.2.2
      · rfl
  have hstrip := stripChars_sandwich w1 w2 _ hw1 hw2 hmchars (by simp)
  unfold cleanCell
  rw [hstrip, removeFirst_cons_self]
  have hcomma : removeFirst ','
      (a ++ (if b = [] then [] else ',' :: b) ++
        (if f = [] then [] else '.' :: f)) =
      (a ++ b) ++ (if f = [] then [] else '.' :: f) := by
    by_cases hb : b = []
    · subst hb
      rw [if_pos rfl, List.append_nil]
      apply removeFirst_of_not_mem
      intro hmem
      rcases List.mem_append.mp hmem with hc | hc
      · exact absurd (hda ',' hc) (by decide)
      · rcases hdot ',' hc with hdig | hne
        · exact absurd hdig (by decide)
        · exact absurd hne (by decide)
    · rw [if_neg hb, List.append_assoc, List.cons_append,
        removeFirst_append_first ',' a _ ?hnm, ← List.append_assoc]
      case hnm =>
        intro hmem
        exact absurd (hda ',' hmem) (by decide)
  rw [hcomma]
  obtain ⟨a0, a', rfl⟩ : ∃ a0 a', a = a0 :: a' := by
    cases a with
    | nil => exact absurd rfl ha
    | cons a0 a' => exact ⟨a0, a', rfl⟩
  rw [parseFloat_of_head_digit _ ?hhd]
  case hhd =>
    intro x hx
    rw [List.cons_append, List.cons_append, List.head?_cons] at hx
    cases hx
    exact hda a0 (List.mem_cons_self a0 a')
  exact parseUnsigned_wellformed (a0 :: a' ++ b) f (by simp)
    (fun c hc => by
      rcases List.mem_append.mp hc with hc | hc
      · exact hda c hc
      · exact hdb c hc) hdf

/-- A successful `Except` bind factors through a successful first step. -/
theorem except_bind_ok {ε α β : Type} {e : Except ε α} {g : α → Except ε β}
    {b : β} (h : e >>= g = .ok b) : ∃ a, e = .ok a ∧ g a = .ok b := by
  cases e with
  | error err => exact Except.noConfusion h
  | ok a => exact ⟨a, rfl, h⟩

/-- A successful `Except.map` factors through a successful argument. -/
theorem except_map_ok {ε α β : Type} {g : α → β} {e : Except ε α} {b : β}
    (h : Except.map g e = .ok b) : ∃ a, e = .ok a ∧ b = g a := by
  cases e with
  | error err => exact Except.noConfusion h
  | ok a =>
    injection h with h1
    exact ⟨a, rfl, h1.symm⟩

/-- A successful `mapExcept` over a cons factors elementwise. -/
theorem mapExcept_ok_cons {α β ε : Type} (f : α → Except ε β) (a : α)
    (l : List α) (l' : List β) (h : mapExcept f (a :: l) = .ok l') :
    ∃ b t, f a = .ok b ∧ mapExcept f l = .ok t ∧ l' = b :: t := by
  unfold mapExcept at h
  obtain ⟨b, hfa, h2⟩ := except_bind_ok h
  obtain ⟨t, hmt, h3⟩ := except_bind_ok h2
  injection h3 with h4
  exact ⟨b, t, hfa, hmt, h4.symm⟩

/-- The column-wise frame property of the cleaning map: names are preserved
and every column other than the target is passed through unchanged. -/
theorem cleanMap_frame (column : String) :
    ∀ (l l' : DataFrame),
      mapExcept (fun c =>
        if c.name = column then
          (mapExcept cleanCellE c.cells).map fun cells =>
            { name := c.name, cells := cells }
        else .ok c) l = .ok l' →
      l'.map Column.name = l.map Column.name ∧
        ∀ p ∈ l.zip l', p.1.name ≠ column → p.2 = p.1
  | [], l', h => by
    injection h with he
    subst he
    exact ⟨rfl, fun p hp => absurd hp (List.not_mem_nil p)⟩
  | c :: t, l', h => by
    obtain ⟨b, t', hfb, ht', rfl⟩ := mapExcept_ok_cons _ _ _ _ h
    obtain ⟨hnames, hrest⟩ := cleanMap_frame column t t' ht'
    have hb : b.name = c.name ∧ (c.name ≠ column → b = c) := by
      by_cases hc : c.name = column
      · rw [if_pos hc] at hfb
        obtain ⟨cells, -, rfl⟩ := except_map_ok hfb
        exact ⟨rfl, fun hne => absurd hc hne⟩
      · rw [if_neg hc] at hfb
        injection hfb with he
        exact ⟨(congrArg Column.name he).symm ▸ rfl, fun _ => he.symm⟩
    refine ⟨?_, ?_⟩
    · simp only [List.map_cons, hnames, hb.1]
    · intro p hp hpne
      rw [List.zip_cons_cons] at hp
      rcases List.mem_cons.mp hp with rfl | hp
      · exact hb.2 hpne
      · exact hrest p hp hpne

/-- C10: whenever `clean_monetary_value` returns a table, that table has the
same column names as the input and every column other than the named one is
unchanged.  The input table itself is untouched: the embedding is pure, as
polars expressions are — `with_columns` builds a new frame (value
semantics), which is why the source rebinds `self.df` to the result. -/
theorem C10_clean_value_frame (df : DataFrame) (column : String)
    (df' : DataFrame) (h : clean_monetary_value df column = .ok df') :
    df'.map Column.name = df.map Column.name ∧
      ∀ p ∈ df.zip df', p.1.name ≠ column → p.2 = p.1 := by
  unfold clean_monetary_value at h
  by_cases hcol : (df.map Column.name).contains column
  · rw [if_pos hcol] at h
    exact cleanMap_frame column df df' h
  · rw [if_neg hcol] at h
    exact Except.noConfusion h

/-- A two-column sample table whose monetary column holds `"$999"`. -/
def sampleDF : DataFrame :=
  [ { name := "Campaign_ID", cells := [Cell.int 1] },
    { name := "Acquisition_Cost", cells := [Cell.str "$999"] } ]

/-- The cleaned form of `sampleDF`. -/
def sampleDFres : DataFrame :=
  [ { name := "Campaign_ID", cells := [Cell.int 1] },
    { name := "Acquisition_Cost",
      cells := [Cell.float (.finite ((natOfDigits ['9','9','9'] : ℚ)))] } ]

/-- Witness for C10 on the concrete sample table. -/
theorem C10_clean_value_frame_witness :
    clean_monetary_value sampleDF "Acquisition_Cost" = .ok sampleDFres ∧
      (sampleDFres.map Column.name = sampleDF.map Column.name ∧
        ∀ p ∈ sampleDF.zip sampleDFres,
          p.1.name ≠ "Acquisition_Cost" → p.2 = p.1) :=
  ⟨rfl, C10_clean_value_frame sampleDF "Acquisition_Cost" sampleDFres rfl⟩

/-- C2 (amended): cleaning a monetary text made of surrounding whitespace, a
dollar sign and a decimal number with AT MOST ONE thousands separator
replaces the column with the parsed finite non-negative value.  (With two or
more separators the single `str.replace` removes only the first one and the
cast fails; see the counterexample.) -/
theorem C2_monetary_cleaning (col : String) (w1 w2 a b f : List Char)
    (hw1 : ∀ c ∈ w1, isWS c = true) (hw2 : ∀ c ∈ w2, isWS c = true)
    (ha : a ≠ []) (hda : ∀ c ∈ a, c.isDigit = true)
    (hdb : ∀ c ∈ b, c.isDigit = true) (hdf : ∀ c ∈ f, c.isDigit = true) :
    clean_monetary_value
        [{ name := col,
           cells := [Cell.str (String.mk (w1 ++ ('$' :: (a ++
             (if b = [] then [] else ',' :: b) ++
             (if f = [] then [] else '.' :: f))) ++ w2))] }] col =
      Except.ok [{ name := col,
                   cells := [Cell.float (.finite ((natOfDigits (a ++ b) : ℚ) +
                     (natOfDigits f : ℚ) / (10:ℚ) ^ f.length))] }] ∧
    0 ≤ (natOfDigits (a ++ b) : ℚ) + (natOfDigits f : ℚ) / (10:ℚ) ^ f.length := by
  have hcell := cleanCell_wellformed w1 w2 a b f hw1 hw2 ha hda hdb hdf
  constructor
  · unfold clean_monetary_value
    rw [if_pos (by simp)]
    simp only [List.append_assoc, List.cons_append] at hcell
    simp [mapExcept, cleanCellE, hcell]
    rfl
  · positivity

/-- Witness for C2 at the concrete text `"$1,234.00"` (one separator). -/
theorem C2_monetary_cleaning_witness :
    (['1'] : List Char) ≠ [] ∧
      (∀ c ∈ (['1'] : List Char), c.isDigit = true) ∧
      clean_monetary_value
          [{ name := "Acquisition_Cost",
             cells := [Cell.str (String.mk ([] ++ ('$' :: (['1'] ++
               (if (['2','3','4'] : List Char) = [] then []
                else ',' :: ['2','3','4']) ++
               (if (['0','0'] : List Char) = [] then []
                else '.' :: ['0','0']))) ++ []))] }] "Acquisition_Cost" =
        Except.ok [{ name := "Acquisition_Cost",
                     cells := [Cell.float (.finite
                       ((natOfDigits (['1'] ++ ['2','3','4']) : ℚ) +
                         (natOfDigits ['0','0'] : ℚ) /
                           (10:ℚ) ^ (['0','0'] : List Char).length))] }] :=
  ⟨by decide, by decide,
    (C2_monetary_cleaning "Acquisition_Cost" [] [] ['1'] ['2','3','4'] ['0','0']
      (fun c hc => absurd hc (List.not_mem_nil c))
      (fun c hc => absurd hc (List.not_mem_nil c))
      (by decide) (by decide) (by decide) (by decide)).1⟩

/-- C2 (counterexample): with two thousands separators, `str.replace`
removes only the first one, the remaining text `1234,567.00` is not castable
and the cleaner raises instead of producing 1234567.00: the claim's "any
number of thousands separators" fails. -/
theorem C2_counterexample :
    clean_monetary_value
        [{ name := "Acquisition_Cost", cells := [Cell.str "$1,234,567.00"] }]
        "Acquisition_Cost" =
      Except.error "ComputeError: conversion to Float64 failed" := rfl

/-- The figure of `create_temporal_analysis` (`visualization.py` lines
36-91): two line traces over the dates. -/
structure TemporalFigure where
  roi_x : List Int
  roi_y : List ℚ
  conv_x : List Int
  conv_y : List ℚ
deriving DecidableEq, Repr

/-- `create_temporal_analysis`: total; an empty table yields a figure whose
traces are all empty. -/
def create_temporal_analysis (df : List TemporalPerfRow) : TemporalFigure :=
  { roi_x := df.map (·.Date)
    roi_y := df.map (·.avg_roi)
    conv_x := df.map (·.Date)
    conv_y := df.map (·.avg_conversion) }

/-- The figure of `create_channel_analysis` (`visualization.py` lines
93-148): ROI bars and an engagement line per channel. -/
structure ChannelFigure where
  bar_x : List String
  bar_y : List ℚ
  line_x : List String
  line_y : List ℚ
deriving DecidableEq, Repr

/-- `create_channel_analysis`: total. -/
def create_channel_analysis (df : List ChannelPerfRow) : ChannelFigure :=
  { bar_x := df.map (·.Channel_Used)
    bar_y := df.map (·.avg_roi)
    line_x := df.map (·.Channel_Used)
    line_y := df.map (·.avg_engagement) }

/-- The figure of `create_segment_analysis` (`visualization.py` lines
150-185): the bubble scatter. -/
structure SegmentFigure where
  x : List ℚ
  y : List ℚ
  size : List Nat
  color : List String
deriving DecidableEq, Repr

/-- `create_segment_analysis`: total (plotly express accepts empty data). -/
def create_segment_analysis (df : List SegmentPerfRow) : SegmentFigure :=
  { x := df.map (·.avg_conversion)
    y := df.map (·.avg_roi)
    size := df.map (·.campaign_count)
    color := df.map (·.Customer_Segment) }

/-- The Python builtin `max` over a series, as `_add_segment_subplot`
(`visualization.py` line 295) calls it: raises `ValueError` on an empty
sequence. -/
def pymax (l : List Nat) : Except String Nat :=
  match l with
  | [] => .error "max() arg is an empty sequence"
  | x :: xs => .ok (xs.foldl Nat.max x)

/-- The composite 2-by-2 dashboard of `create_performance_overview`
(`visualization.py` lines 187-318): temporal traces, channel bars, the
segment bubble scatter (whose marker `sizeref` divides twice the maximum
campaign count by 40 squared) and a box plot of the temporal ROI column. -/
structure OverviewFigure where
  temporal_x : List Int
  temporal_roi : List ℚ
  temporal_conv : List ℚ
  channel_x : List String
  channel_roi : List ℚ
  segment_x : List ℚ
  segment_y : List ℚ
  segment_size : List Nat
  segment_sizeref : ℚ
  segment_text : List String
  box_y : List ℚ
deriving DecidableEq, Repr

/-- `create_performance_overview`: the segment subplot computes
`max(df["campaign_count"])` with the Python builtin, so an empty segment
table raises `ValueError`; every other subplot is total. -/
def create_performance_overview (t : List TemporalPerfRow)
    (c : List ChannelPerfRow) (s : List SegmentPerfRow) :
    Except String OverviewFigure := do
  let m ← pymax (s.map (·.campaign_count))
  .ok { temporal_x := t.map (·.Date)
        temporal_roi := t.map (·.avg_roi)
        temporal_conv := t.map (·.avg_conversion)
        channel_x := c.map (·.Channel_Used)
        channel_roi := c.map (·.avg_roi)
        segment_x := s.map (·.avg_conversion)
        segment_y := s.map (·.avg_roi)
        segment_size := s.map (·.campaign_count)
        segment_sizeref := 2 * (m : ℚ) / 40 ^ 2
        segment_text := s.map (·.Customer_Segment)
        box_y := t.map (·.avg_roi) }

/-- C7 (counterexample): the composite overview raises on empty summary
tables — `max()` of the empty campaign-count column — so it is not true
that every chart builder handles an empty group list without raising. -/
theorem C7_counterexample :
    create_performance_overview [] [] [] =
      Except.error "max() arg is an empty sequence" := rfl

/-- C7 (amended): on empty input tables the three simple chart builders
return empty-but-valid figures, without raising (they are total functions
of their inputs, which they do not mutate — the embedding is pure, as the
plotly calls only read the columns); the composite overview succeeds
exactly when the segment table is non-empty, and raises on an empty one. -/
theorem C7_empty_input_figures :
    create_temporal_analysis [] =
        { roi_x := [], roi_y := [], conv_x := [], conv_y := [] } ∧
      create_channel_analysis [] =
        { bar_x := [], bar_y := [], line_x := [], line_y := [] } ∧
      create_segment_analysis [] = { x := [], y := [], size := [], color := [] } ∧
      ∀ (t : List TemporalPerfRow) (c : List ChannelPerfRow)
        (s : List SegmentPerfRow),
        (∃ fig, create_performance_overview t c s = Except.ok fig) ↔ s ≠ [] := by
  refine ⟨rfl, rfl, rfl, fun t c s => ?_⟩
  cases s with
  | nil =>
    exact ⟨fun ⟨fig, hfig⟩ => Except.noConfusion hfig, fun hne => absurd rfl hne⟩
  | cons a s' =>
    exact ⟨fun _ => by simp, fun _ => ⟨_, rfl⟩⟩

/-- The columns selectable by name for the correlation heatmap: the
numeric (rational-valued) columns of the enriched table. -/
def colFun (m : String) : Option (Row → ℚ) :=
  if m = "ROI" then some (·.ROI)
  else if m = "Conversion_Rate" then some (·.Conversion_Rate)
  else if m = "Engagement_Score" then some (·.Engagement_Score)
  else if m = "Acquisition_Cost" then some (·.Acquisition_Cost)
  else if m = "Clicks" then some (·.Clicks)
  else if m = "Impressions" then some (·.Impressions)
  else if m = "Total_Conversions" then some (·.Total_Conversions)
  else none

/-- `df.select([m])` for one metric name: the column, or
`ColumnNotFoundError` for an unknown name. -/
def selectColumn (df : List Row) (m : String) : Except String (List ℚ) :=
  match colFun m with
  | some f => .ok (df.map f)
  | none => .error "ColumnNotFoundError"

/-- Covariance of two columns (paired over their common length). -/
def covariance (x y : List ℚ) : ℚ :=
  qmean ((x.zip y).map fun p => (p.1 - qmean x) * (p.2 - qmean y))

/-- One cell of the correlation matrix.  The source's float Pearson
coefficient is `cov / (sqrt var1 * sqrt var2)`; the embedding records the
determining rational triple, since the square root lies outside the
rational model and no claim inspects the numeric value. -/
structure CorrCell where
  cov : ℚ
  var1 : ℚ
  var2 : ℚ
deriving DecidableEq, Repr

/-- `df.select(metrics).corr()` (`visualization.py` line 374): the d-by-d
matrix of pairwise correlation cells, d the number of selected columns. -/
def corrMatrix (cols : List (List ℚ)) : List (List CorrCell) :=
  cols.map fun x => cols.map fun y =>
    { cov := covariance x y, var1 := covariance x x, var2 := covariance y y }

/-- The heatmap figure: the correlation matrix with the metric names on
both axes. -/
structure HeatmapFigure where
  z : List (List CorrCell)
  x : List String
  y : List String
deriving DecidableEq, Repr

/-- `create_heatmap_analysis` (`visualization.py` lines 353-393): optional
segment filter, select the metric columns, build the correlation heatmap.
There is no arity check on `metrics`. -/
def create_heatmap_analysis (df : List Row) (metrics : List String)
    (segments : Option (List String)) : Except String HeatmapFigure := do
  let dff := match segments with
    | some segs => df.filter fun r => segs.contains r.Customer_Segment
    | none => df
  let cols ← mapExcept (selectColumn dff) metrics
  .ok { z := corrMatrix cols, x := metrics, y := metrics }

/-- C8 (counterexample): a call with exactly one metric name is NOT
rejected: on a concrete table it succeeds, silently producing a figure
(whose matrix is 1-by-1). -/
theorem C8_counterexample :
    ∃ fig, create_heatmap_analysis channelSample ["ROI"] none =
      Except.ok fig := ⟨_, rfl⟩

/-- C8 (amended): for every table and every known single metric name, the
heatmap construction succeeds and silently yields the degenerate 1-by-1
correlation matrix; no rejection or flagging happens. -/
theorem C8_single_metric (df : List Row) (m : String)
    (h : (colFun m).isSome = true) :
    ∃ fig, create_heatmap_analysis df [m] none = Except.ok fig ∧
      fig.z.map List.length = [1] ∧ fig.x = [m] ∧ fig.y = [m] := by
  obtain ⟨f, hf⟩ := Option.isSome_iff_exists.mp h
  refine ⟨{ z := corrMatrix [df.map f], x := [m], y := [m] }, ?_, rfl, rfl, rfl⟩
  simp [create_heatmap_analysis, mapExcept, selectColumn, hf]
  rfl

/-- Witness for C8 at the metric name `"ROI"` on the concrete sample. -/
theorem C8_single_metric_witness :
    (colFun "ROI").isSome = true ∧
      ∃ fig, create_heatmap_analysis channelSample ["ROI"] none =
          Except.ok fig ∧
        fig.z.map List.length = [1] ∧ fig.x = ["ROI"] ∧ fig.y = ["ROI"] :=
  ⟨rfl, C8_single_metric channelSample "ROI" rfl⟩

/-- The possible observable outcomes of invoking the `quarto` subprocess. -/
inductive QuartoOutcome where
  | success
  | exitNonZero (output : Option String)
  | notFound
deriving DecidableEq, Repr

/-- The exceptions `subprocess.run(..., check=True)` can raise here. -/
inductive PyError where
  | calledProcessError (output : Option String)
  | fileNotFoundError
deriving DecidableEq, Repr

/-- `subprocess.run(["quarto", "render", ...], check=True)` (`main.py`
lines 107-111): a non-zero exit raises `CalledProcessError` carrying the
captured output; a missing executable raises `FileNotFoundError`. -/
def run_quarto : QuartoOutcome → Except PyError Unit
  | .success => .ok ()
  | .exitNonZero out => .error (.calledProcessError out)
  | .notFound => .error .fileNotFoundError

/-- What `generate_report` leaves behind: the console messages printed and
the files present afterwards. -/
structure ReportResult where
  console : List String
  files : List String
deriving DecidableEq, Repr

/-- The template file `generate_report` writes. -/
def templatePath : String := "templates/marketing_report.qmd"

/-- The copy of the template placed in the reports directory. -/
def reportPath : String := "reports/report.qmd"

/-- The diagnostic printed when the renderer exits non-zero. -/
def quartoFailMsg : String := "Erreur lors de la generation du rapport Quarto"

/-- The diagnostic printed when the renderer executable is missing. -/
def quartoMissingMsg : String :=
  "Erreur : Quarto non installe ou absent du PATH"

/-- `generate_report` (`main.py` lines 30-119): writes the Quarto template,
copies it into the output directory, invokes the external renderer, and
catches both `CalledProcessError` (printing the diagnostic and the captured
output, if any) and `FileNotFoundError` (printing the install hint) instead
of re-raising.  The outer `Except` is the escaping-exception channel: every
branch returns `.ok`, and the previously generated artifacts are carried
over untouched. -/
def generate_report (artifacts : List String) (outcome : QuartoOutcome) :
    Except PyError ReportResult :=
  let files := artifacts ++ [templatePath, reportPath]
  match run_quarto outcome with
  | .ok _ =>
    .ok { console := ["Rapport Quarto genere avec succes"], files := files }
  | .error (.calledProcessError out) =>
    .ok { console := quartoFailMsg ::
            (match out with | some o => [o] | none => []),
          files := files }
  | .error .fileNotFoundError =>
    .ok { console := [quartoMissingMsg,
            "Veuillez installer Quarto : https://quarto.org/docs/get-started/"],
          files := files }

/-- C9: when the renderer is missing or exits non-zero, `generate_report`
returns normally (no exception escapes the two `except` clauses), every
previously generated artifact is still present afterwards, and the first
console line reports the failure. -/
theorem C9_renderer_failure_nonfatal (artifacts : List String)
    (outcome : QuartoOutcome) (h : outcome ≠ .success) :
    ∃ res, generate_report artifacts outcome = .ok res ∧
      (∀ a ∈ artifacts, a ∈ res.files) ∧
      (res.console.head? = some quartoFailMsg ∨
        res.console.head? = some quartoMissingMsg) := by
  cases outcome with
  | success => exact absurd rfl h
  | exitNonZero out =>
    exact ⟨_, rfl, fun a ha => List.mem_append.mpr (Or.inl ha), Or.inl rfl⟩
  | notFound =>
    exact ⟨_, rfl, fun a ha => List.mem_append.mpr (Or.inl ha), Or.inr rfl⟩

/-- Witness for C9 at a concrete artifact list and a missing renderer. -/
theorem C9_renderer_failure_nonfatal_witness :
    (QuartoOutcome.notFound ≠ QuartoOutcome.success) ∧
      ∃ res, generate_report ["reports/visualizations/channel_comparison.html"]
          QuartoOutcome.notFound = .ok res ∧
        (∀ a ∈ ["reports/visualizations/channel_comparison.html"],
          a ∈ res.files) ∧
        (res.console.head? = some quartoFailMsg ∨
          res.console.head? = some quartoMissingMsg) :=
  ⟨by decide,
    C9_renderer_failure_nonfatal
      ["reports/visualizations/channel_comparison.html"]
      QuartoOutcome.notFound (by decide)⟩
